import Mathlib

/-!
Shallow embedding of `logger.py` (ByteScrape/logging): an `EnhancedFormatter`
that replaces U+2192 with an ASCII arrow, strips emoji/pictograph characters,
and optionally colorizes via ANSI codes; `archive_old_logs`, which bundles
stale `*.log` files into a tar.gz and deletes the originals; and
`configure_logging`, which resets a named logger's handlers and attaches a
console handler plus an optional midnight-rotating file handler.

Log lines are modelled as lists of characters (`Line`); Python strings are
sequences of Unicode scalar values, as is `List Char`.  The directory that
`archive_old_logs` manipulates is modelled as a list of (name, content)
pairs.  Fallible deletion (`Path.unlink`) is modelled by an oracle
`fails : String → Bool` saying which unlink calls raise, with `errOf`
giving the exception's rendered text.
-/

abbrev Line := List Char

/-- U+2192, the Unicode right arrow replaced by `_process_special_chars`. -/
def arrowChar : Char := Char.ofNat 0x2192

/-- ESC (U+001B), the first byte of every ANSI escape sequence. -/
def escChar : Char := Char.ofNat 0x1B

/-- colorama `Fore.CYAN`. -/
def FORE_CYAN : Line := "\x1b[36m".data
/-- colorama `Fore.GREEN`. -/
def FORE_GREEN : Line := "\x1b[32m".data
/-- colorama `Fore.YELLOW`. -/
def FORE_YELLOW : Line := "\x1b[33m".data
/-- colorama `Fore.RED`. -/
def FORE_RED : Line := "\x1b[31m".data
/-- colorama `Fore.WHITE + Style.BRIGHT + Fore.RED`, the CRITICAL color. -/
def CRITICAL_COLOR : Line := "\x1b[37m\x1b[1m\x1b[31m".data
/-- colorama `Style.RESET_ALL`. -/
def RESET_ALL : Line := "\x1b[0m".data

/-- Python `logging` numeric levels. -/
def DEBUG : Nat := 10
def INFO : Nat := 20
def WARNING : Nat := 30
def ERROR : Nat := 40
def CRITICAL : Nat := 50

/-- `EnhancedFormatter.COLOR_MAP.get(level, '')`: the level-to-ANSI-color
dictionary lookup with default empty string. -/
def COLOR_MAP (level : Nat) : Line :=
  if level = DEBUG then FORE_CYAN
  else if level = INFO then FORE_GREEN
  else if level = WARNING then FORE_YELLOW
  else if level = ERROR then FORE_RED
  else if level = CRITICAL then CRITICAL_COLOR
  else []

/-- Membership test for the character class of `EMOJI_PATTERN`
(logger.py lines 17-26), range by range in source order. -/
def isEmojiChar (c : Char) : Bool :=
  let n := c.toNat
  (0x1F600 ≤ n && n ≤ 0x1F64F) || (0x1F300 ≤ n && n ≤ 0x1F5FF) ||
  (0x1F680 ≤ n && n ≤ 0x1F6FF) || (0x1F1E0 ≤ n && n ≤ 0x1F1FF) ||
  (n = 0x200D) || (n = 0x23CF) || (n = 0x23E9) ||
  (0x23EA ≤ n && n ≤ 0x23ED) || (n = 0x23EF) ||
  (0x23F0 ≤ n && n ≤ 0x23F3) ||
  (0x25A0 ≤ n && n ≤ 0x25FF) || (0x2600 ≤ n && n ≤ 0x26FF) ||
  (0x2700 ≤ n && n ≤ 0x27BF) || (0x2B00 ≤ n && n ≤ 0x2BFF) ||
  (0x10000 ≤ n && n ≤ 0x10FFFF)

/-- `msg.replace("→", "-->")`: the needle is a single character, so the
substring replacement is the character-wise expansion. -/
def replaceArrow : Line → Line
  | [] => []
  | c :: rest => (if c = arrowChar then "-->".data else [c]) ++ replaceArrow rest

/-- `any(ord(c) > 0x7F for c in msg)`. -/
def hasNonAscii (l : Line) : Bool := l.any (fun c => 0x7F < c.toNat)

/-- `EMOJI_PATTERN.sub("", msg)`: the pattern is a character class (with `+`),
so substitution by the empty string deletes exactly the matching characters. -/
def stripEmoji (l : Line) : Line := l.filter (fun c => !isEmojiChar c)

/-- `EnhancedFormatter._process_special_chars` (logger.py lines 50-55):
the source reassigns `msg = msg.replace(...)` and then tests/strips that
reassigned value. -/
def _process_special_chars (msg : Line) : Line :=
  if hasNonAscii (replaceArrow msg) then stripEmoji (replaceArrow msg)
  else replaceArrow msg

/-- `EnhancedFormatter._apply_colors` (logger.py lines 57-61);
`use_colors` is the instance attribute of the formatter. -/
def _apply_colors (use_colors : Bool) (msg : Line) (level : Nat) : Line :=
  if use_colors then COLOR_MAP level ++ msg ++ RESET_ALL else msg

/-- The state of an `EnhancedFormatter` instance after `__init__`. -/
structure EnhancedFormatter where
  fmt : String
  datefmt : Option String
  tty_only : Bool
  use_colors : Bool
deriving DecidableEq

/-- `EnhancedFormatter.__init__(fmt, datefmt, tty_only)` evaluated when
`sys.stdout.isatty()` returns `stdoutIsTTY`:
`self.use_colors = sys.stdout.isatty() or not tty_only` (line 43). -/
def EnhancedFormatter.init (fmt : String) (datefmt : Option String)
    (tty_only : Bool) (stdoutIsTTY : Bool) : EnhancedFormatter :=
  ⟨fmt, datefmt, tty_only, stdoutIsTTY || !tty_only⟩

/-- `logging.Formatter.format` with the format string
`"%(asctime)s - %(levelname)s: %(message)s"`: the rendered line. -/
def renderLine (asctime levelname message : Line) : Line :=
  asctime ++ " - ".data ++ levelname ++ ": ".data ++ message

/-- `EnhancedFormatter.format` (logger.py lines 45-48).  `ttyNow` is the TTY
state of stdout at format time; the source never consults it — coloring is
decided by `self.use_colors`, fixed at construction. -/
def EnhancedFormatter.format (self : EnhancedFormatter) (ttyNow : Bool)
    (asctime levelname : Line) (levelno : Nat) (message : Line) : Line :=
  _apply_colors self.use_colors
    (_process_special_chars (renderLine asctime levelname message)) levelno

/-- The file handler's plain `logging.Formatter` (logger.py lines 128-131):
same layout, no color pass, no sanitizing pass. -/
def plainFormat (asctime levelname message : Line) : Line :=
  renderLine asctime levelname message

/-- A line contains the ESC character (hence possibly an ANSI sequence). -/
def hasEsc (l : Line) : Bool := l.any (fun c => c = escChar)

/-! ## Filesystem model and `archive_old_logs` -/

/-- Contents of a directory entry: an ordinary file, or a tar.gz whose member
names are recorded. -/
inductive FileData where
  | plain : FileData
  | tarball (entries : List String) : FileData
deriving DecidableEq

/-- The logs directory: (base name, content) pairs. -/
abbrev Dir := List (String × FileData)

/-- `logs_dir.glob("*.log")` membership: the name ends in `.log`.  Unlike
the `glob` module, `pathlib.Path.glob` has no hidden-file exception: `*`
also matches names with a leading dot (and the empty string), so `.h.log`
and `.log` are candidates too. -/
def globLogMatch (n : String) : Bool :=
  decide (".log".data <:+ n.data)

/-- logger.py line 69: the list comprehension selecting the archive
candidates, in directory order, excluding `current_log_file`. -/
def old_logs (d : Dir) (current : String) : Dir :=
  d.filter (fun f => globLogMatch f.1 && f.1 != current)

/-- `tarfile.open(name, "w:gz")` then writing: creates the file, truncating
any existing file of that name. -/
def writeFile (d : Dir) (name : String) (data : FileData) : Dir :=
  d.filter (fun f => f.1 != name) ++ [(name, data)]

/-- `Path.unlink`. -/
def removeFile (d : Dir) (name : String) : Dir :=
  d.filter (fun f => f.1 != name)

/-- The line printed to stderr on a deletion failure (logger.py line 82):
`f"Error deleting log file {log_file}: {err}"`. -/
def errMsg (errOf : String → String) (n : String) : String :=
  "Error deleting log file " ++ n ++ ": " ++ errOf n

/-- The deletion loop of `archive_old_logs` (logger.py lines 78-82): unlink
each candidate; when `fails` says the unlink raises, print the error line to
stderr and continue with the next candidate.  Returns the directory and the
stderr lines in print order. -/
def unlinkAll (fails : String → Bool) (errOf : String → String) :
    List String → Dir → Dir × List String
  | [], d => (d, [])
  | n :: rest, d =>
    if fails n then
      let r := unlinkAll fails errOf rest d
      (r.1, errMsg errOf n :: r.2)
    else
      unlinkAll fails errOf rest (removeFile d n)

/-- logger.py line 73: `f"logs_archive_{...strftime(...)}.tar.gz"` with the
timestamp already rendered as `ts`. -/
def archiveFileName (ts : String) : String :=
  "logs_archive_" ++ ts ++ ".tar.gz"

/-- `archive_old_logs(logs_dir, current_log_file)` (logger.py lines 64-82),
with wall clock rendered as `ts` and unlink failures given by `fails`.
The tar members are added under `log_file.name` (flat base names). -/
def archive_old_logs (d : Dir) (current : String) (ts : String)
    (fails : String → Bool) (errOf : String → String) : Dir × List String :=
  let olds := old_logs d current
  if olds.isEmpty then (d, [])
  else
    let d1 := writeFile d (archiveFileName ts)
      (FileData.tarball (olds.map (fun f => f.1)))
    unlinkAll fails errOf (olds.map (fun f => f.1)) d1

/-! ## Handlers and `configure_logging` -/

/-- A handler attached by `configure_logging`: either the
`logging.StreamHandler` carrying an `EnhancedFormatter`, or the
`TimedRotatingFileHandler` with its constructor arguments and plain
formatter strings. -/
inductive Handler where
  | stream (fmt : EnhancedFormatter) : Handler
  | timedRotatingFile (filename : String) (whenSpec : String)
      (backupCount : Nat) (encoding : String)
      (fmt : String) (datefmt : String) : Handler
deriving DecidableEq

/-- The logger object: name, level, ordered handler list. -/
structure Logger where
  name : String
  level : Nat
  handlers : List Handler
deriving DecidableEq

def FMT_STRING : String := "%(asctime)s - %(levelname)s: %(message)s"
def DATE_FMT : String := "%d/%m/%y %H:%M:%S"

/-- The console handler built at logger.py lines 99-106, with
`sys.stdout.isatty()` at construction time given by `stdoutIsTTY`. -/
def mkConsoleHandler (stdoutIsTTY : Bool) : Handler :=
  Handler.stream (EnhancedFormatter.init FMT_STRING (some DATE_FMT) true stdoutIsTTY)

/-- `TimedRotatingFileHandler(filename, when="midnight", backupCount=7,
encoding="utf-8")` with the plain formatter (logger.py lines 122-131). -/
def mkFileHandler (newLogFile : String) : Handler :=
  Handler.timedRotatingFile newLogFile "midnight" 7 "utf-8" FMT_STRING DATE_FMT

/-- Opening the rotating handler's file in the default append mode: creates
the file when absent, otherwise leaves the directory unchanged. -/
def touchFile (d : Dir) (name : String) : Dir :=
  if d.any (fun f => f.1 == name) then d else d ++ [(name, FileData.plain)]

/-- `configure_logging(name, path, level, save)` (logger.py lines 85-134).
`prevHandlers` are the handlers registered under `name` before the call
(the global registry hands back the same logger object); the removal loop
at lines 94-96 detaches every one of them, so the new handler list is built
from empty.  `nowFileTs` renders `strftime("%d-%m-%Y_%H-%M-%S")` and
`nowArchiveTs` renders the archive timestamp.  Returns the logger, the
directory after archival and file creation, and the stderr lines. -/
def configure_logging (name : String) (prevHandlers : List Handler)
    (level : Nat) (save : Bool) (stdoutIsTTY : Bool) (d : Dir)
    (nowFileTs : String) (nowArchiveTs : String)
    (fails : String → Bool) (errOf : String → String) :
    Logger × Dir × List String :=
  let handlers0 : List Handler := []
  let handlers1 := handlers0 ++ [mkConsoleHandler stdoutIsTTY]
  if save then
    let newLogFile := nowFileTs ++ ".log"
    let r := archive_old_logs d newLogFile nowArchiveTs fails errOf
    let d2 := touchFile r.1 newLogFile
    (⟨name, level, handlers1 ++ [mkFileHandler newLogFile]⟩, d2, r.2)
  else
    (⟨name, level, handlers1⟩, d, [])

/-- One record dispatched to every handler of the logger, each sink
formatting it once: the console handler through `EnhancedFormatter.format`,
the file handler through the plain formatter. -/
def emitRecord (l : Logger) (ttyNow : Bool) (asctime levelname : Line)
    (levelno : Nat) (message : Line) : List Line :=
  l.handlers.map (fun h =>
    match h with
    | Handler.stream f => f.format ttyNow asctime levelname levelno message
    | Handler.timedRotatingFile _ _ _ _ _ _ =>
        plainFormat asctime levelname message)

/-- Recognizes the console sink (`logging.StreamHandler`). -/
def isStreamHandler : Handler → Bool
  | Handler.stream _ => true
  | Handler.timedRotatingFile _ _ _ _ _ _ => false

/-- Recognizes the file sink (`TimedRotatingFileHandler`). -/
def isFileHandler : Handler → Bool
  | Handler.stream _ => false
  | Handler.timedRotatingFile _ _ _ _ _ _ => true

/-! ## Rotation model (stdlib `TimedRotatingFileHandler`) -/

/-- Rotation state of the file sink: the active file and the rotated
backups, newest first. -/
structure RotState where
  current : String
  backups : List String
deriving DecidableEq

/-- Modelled from the spec: the standard library's timed-rotation rollover
(the mechanism itself is not part of this repository; the source only
configures it with `when="midnight"`, `backupCount=7`).  At the boundary the
active file is renamed to a dated backup, a new active file is opened, and
backups beyond `backupCount` are discarded automatically. -/
def doRollover (backupCount : Nat) (rotatedName newCurrent : String)
    (s : RotState) : RotState :=
  ⟨newCurrent, (rotatedName :: s.backups).take backupCount⟩

/-- A sequence of midnight rollovers, each with its backup name and new
active file name. -/
def rolloverRuns (backupCount : Nat) (steps : List (String × String))
    (s : RotState) : RotState :=
  steps.foldl (fun st p => doRollover backupCount p.1 p.2 st) s

/-! ## Lemmas about the sanitizer -/

lemma arrowRepl_eq : "-->".data = ['-', '-', '>'] := rfl

lemma arrowChar_toNat : arrowChar.toNat = 0x2192 := rfl

lemma mem_replaceArrow {c : Char} :
    ∀ {l : Line}, c ∈ replaceArrow l → c = '-' ∨ c = '>' ∨ c ∈ l := by
  intro l
  induction l with
  | nil => intro h; cases h
  | cons x rest ih =>
    intro h
    unfold replaceArrow at h
    rcases List.mem_append.mp h with h1 | h2
    · by_cases hx : x = arrowChar
      · rw [if_pos hx, arrowRepl_eq] at h1
        simp only [List.mem_cons, List.mem_singleton, List.not_mem_nil,
          or_false] at h1
        rcases h1 with h | h | h
        · exact Or.inl h
        · exact Or.inl h
        · exact Or.inr (Or.inl h)
      · rw [if_neg hx, List.mem_singleton] at h1
        exact Or.inr (Or.inr (h1 ▸ List.mem_cons_self _ _))
    · rcases ih h2 with h | h | h
      · exact Or.inl h
      · exact Or.inr (Or.inl h)
      · exact Or.inr (Or.inr (List.mem_cons_of_mem _ h))

lemma arrow_not_mem_replaceArrow : ∀ l : Line, arrowChar ∉ replaceArrow l := by
  intro l
  induction l with
  | nil => intro h; cases h
  | cons x rest ih =>
    intro h
    unfold replaceArrow at h
    rcases List.mem_append.mp h with h1 | h2
    · by_cases hx : x = arrowChar
      · rw [if_pos hx, arrowRepl_eq] at h1
        exact absurd h1 (by decide)
      · rw [if_neg hx] at h1
        exact hx (List.mem_singleton.mp h1).symm
    · exact ih h2

lemma mem_replaceArrow_of_mem {c : Char} {l : Line}
    (hc : c ∈ l) (hne : c ≠ arrowChar) : c ∈ replaceArrow l := by
  induction l with
  | nil => cases hc
  | cons x rest ih =>
    unfold replaceArrow
    cases hc with
    | head =>
      exact List.mem_append.mpr
        (Or.inl (by rw [if_neg hne]; exact List.mem_singleton.mpr rfl))
    | tail _ hc => exact List.mem_append.mpr (Or.inr (ih hc))

lemma replaceArrow_eq_self {l : Line} (h : ∀ c ∈ l, c ≠ arrowChar) :
    replaceArrow l = l := by
  induction l with
  | nil => rfl
  | cons x rest ih =>
    unfold replaceArrow
    rw [if_neg (h x (List.mem_cons_self _ _)),
      ih (fun c hc => h c (List.mem_cons_of_mem _ hc))]
    rfl

lemma infix_replaceArrow {l : Line} (h : arrowChar ∈ l) :
    "-->".data <:+: replaceArrow l := by
  induction l with
  | nil => cases h
  | cons x rest ih =>
    unfold replaceArrow
    by_cases hx : x = arrowChar
    · exact ⟨[], replaceArrow rest, by rw [if_pos hx]; simp⟩
    · have hm : arrowChar ∈ rest := by
        cases h with
        | head => exact absurd rfl hx
        | tail _ h => exact h
      obtain ⟨s, t, hst⟩ := ih hm
      exact ⟨(if x = arrowChar then "-->".data else [x]) ++ s, t, by
        rw [List.append_assoc, List.append_assoc, ← List.append_assoc s, hst]⟩

lemma infix_filter {pat l : Line} {p : Char → Bool}
    (h : pat <:+: l) (hp : ∀ c ∈ pat, p c = true) : pat <:+: l.filter p := by
  obtain ⟨s, t, hst⟩ := h
  refine ⟨s.filter p, t.filter p, ?_⟩
  rw [← hst, List.filter_append, List.filter_append,
    List.filter_eq_self.mpr hp]

lemma emoji_nonAscii {c : Char} (h : isEmojiChar c = true) : 0x7F < c.toNat := by
  unfold isEmojiChar at h
  simp only [Bool.or_eq_true, Bool.and_eq_true, decide_eq_true_eq] at h
  omega

lemma ascii_not_emoji {c : Char} (h : c.toNat ≤ 0x7F) : isEmojiChar c = false := by
  cases he : isEmojiChar c
  · rfl
  · exact absurd (emoji_nonAscii he) (by omega)

lemma colorMap_ascii (lv : Nat) : ∀ c ∈ COLOR_MAP lv, c.toNat ≤ 0x7F := by
  unfold COLOR_MAP
  repeat' split
  all_goals decide

lemma resetAll_ascii : ∀ c ∈ RESET_ALL, c.toNat ≤ 0x7F := by decide

lemma mem_process_sub {c : Char} {msg : Line}
    (h : c ∈ _process_special_chars msg) : c = '-' ∨ c = '>' ∨ c ∈ msg := by
  unfold _process_special_chars at h
  split at h
  · exact mem_replaceArrow (List.mem_of_mem_filter h)
  · exact mem_replaceArrow h

lemma arrow_not_process (msg : Line) :
    arrowChar ∉ _process_special_chars msg := by
  intro h
  unfold _process_special_chars at h
  split at h
  · exact arrow_not_mem_replaceArrow _ (List.mem_of_mem_filter h)
  · exact arrow_not_mem_replaceArrow _ h

lemma infix_process {msg : Line} (h : arrowChar ∈ msg) :
    "-->".data <:+: _process_special_chars msg := by
  unfold _process_special_chars
  split
  · exact infix_filter (infix_replaceArrow h) (by decide)
  · exact infix_replaceArrow h

lemma infix_applyColors {pat msg : Line} (uc : Bool) (lv : Nat)
    (h : pat <:+: msg) : pat <:+: _apply_colors uc msg lv := by
  unfold _apply_colors
  split
  · obtain ⟨s, t, hst⟩ := h
    exact ⟨COLOR_MAP lv ++ s, t ++ RESET_ALL, by
      rw [← hst]; simp [List.append_assoc]⟩
  · exact h

lemma mem_applyColors {c : Char} {msg : Line} {uc : Bool} {lv : Nat}
    (h : c ∈ _apply_colors uc msg lv) :
    c ∈ COLOR_MAP lv ∨ c ∈ msg ∨ c ∈ RESET_ALL := by
  unfold _apply_colors at h
  split at h
  · rcases List.mem_append.mp h with h | h
    · rcases List.mem_append.mp h with h | h
      · exact Or.inl h
      · exact Or.inr (Or.inl h)
    · exact Or.inr (Or.inr h)
  · exact Or.inr (Or.inl h)

lemma mem_render_right {c : Char} {a ln m : Line} (h : c ∈ m) :
    c ∈ renderLine a ln m := by
  unfold renderLine
  exact List.mem_append.mpr (Or.inr h)

lemma mem_render_cases {c : Char} {a ln m : Line} (h : c ∈ renderLine a ln m) :
    c ∈ a ∨ c ∈ " - ".data ∨ c ∈ ln ∨ c ∈ ": ".data ∨ c ∈ m := by
  unfold renderLine at h
  rcases List.mem_append.mp h with h | h
  · rcases List.mem_append.mp h with h | h
    · rcases List.mem_append.mp h with h | h
      · rcases List.mem_append.mp h with h | h
        · exact Or.inl h
        · exact Or.inr (Or.inl h)
      · exact Or.inr (Or.inr (Or.inl h))
    · exact Or.inr (Or.inr (Or.inr (Or.inl h)))
  · exact Or.inr (Or.inr (Or.inr (Or.inr h)))

/-! ## Claim theorems: formatter -/

/-- C3: for every log message containing U+2192, the console formatter's
output contains the literal ASCII substring `-->` in its place and contains
no occurrence of U+2192. -/
theorem C3_arrow_replacement (fm : EnhancedFormatter) (t : Bool)
    (a ln m : Line) (lv : Nat) (h : arrowChar ∈ m) :
    ("-->".data <:+: fm.format t a ln lv m) ∧
    arrowChar ∉ fm.format t a ln lv m := by
  have hline : arrowChar ∈ renderLine a ln m := mem_render_right h
  constructor
  · exact infix_applyColors _ _ (infix_process hline)
  · intro hmem
    unfold EnhancedFormatter.format at hmem
    rcases mem_applyColors hmem with h1 | h1 | h1
    · exact absurd (colorMap_ascii lv _ h1) (by decide)
    · exact arrow_not_process _ h1
    · exact absurd (resetAll_ascii _ h1) (by decide)

/-- Witness for `C3_arrow_replacement` at a concrete record. -/
theorem C3_arrow_replacement_witness :
    ("-->".data <:+:
      (EnhancedFormatter.init FMT_STRING (some DATE_FMT) true true).format true
        "01/01/25 10:00:00".data "INFO".data INFO
        ("go ".data ++ [arrowChar] ++ " stop".data)) ∧
    arrowChar ∉
      (EnhancedFormatter.init FMT_STRING (some DATE_FMT) true true).format true
        "01/01/25 10:00:00".data "INFO".data INFO
        ("go ".data ++ [arrowChar] ++ " stop".data) :=
  C3_arrow_replacement _ _ _ _ _ _ (by decide)

/-- C4: a message containing a character of the emoji/pictograph ranges
yields formatted output with zero characters from those ranges; and for
ASCII-only input the sanitizer returns the rendered line unchanged. -/
theorem C4_emoji_stripping (fm : EnhancedFormatter) (t : Bool)
    (a ln m : Line) (lv : Nat) :
    ((∃ c ∈ m, isEmojiChar c = true) →
      ∀ c ∈ fm.format t a ln lv m, isEmojiChar c = false) ∧
    ((∀ c ∈ a, c.toNat ≤ 0x7F) → (∀ c ∈ ln, c.toNat ≤ 0x7F) →
      (∀ c ∈ m, c.toNat ≤ 0x7F) →
      _process_special_chars (renderLine a ln m) = renderLine a ln m) := by
  constructor
  · rintro ⟨e, he, hemoji⟩ c hc
    have hne : e ≠ arrowChar := by
      intro heq; rw [heq] at hemoji; exact absurd hemoji (by decide)
    have hrep : e ∈ replaceArrow (renderLine a ln m) :=
      mem_replaceArrow_of_mem (mem_render_right he) hne
    have hna : hasNonAscii (replaceArrow (renderLine a ln m)) = true :=
      List.any_eq_true.mpr ⟨e, hrep, decide_eq_true (emoji_nonAscii hemoji)⟩
    unfold EnhancedFormatter.format at hc
    rcases mem_applyColors hc with h1 | h1 | h1
    · exact ascii_not_emoji (colorMap_ascii lv _ h1)
    · unfold _process_special_chars at h1
      rw [if_pos hna] at h1
      have := (List.mem_filter.mp h1).2
      simpa using this
    · exact ascii_not_emoji (resetAll_ascii _ h1)
  · intro ha hln hm
    have hal : ∀ c ∈ renderLine a ln m, c.toNat ≤ 0x7F := by
      intro c hc
      rcases mem_render_cases hc with h | h | h | h | h
      · exact ha c h
      · exact (by decide : ∀ x ∈ " - ".data, x.toNat ≤ 0x7F) c h
      · exact hln c h
      · exact (by decide : ∀ x ∈ ": ".data, x.toNat ≤ 0x7F) c h
      · exact hm c h
    have hno : ∀ c ∈ renderLine a ln m, c ≠ arrowChar := by
      intro c hc heq
      have := hal c hc
      rw [heq, arrowChar_toNat] at this
      omega
    have hid : replaceArrow (renderLine a ln m) = renderLine a ln m :=
      replaceArrow_eq_self hno
    have hfa : hasNonAscii (renderLine a ln m) = false := by
      rw [hasNonAscii, List.any_eq_false]
      intro c hc
      simp only [decide_eq_true_eq, not_lt]
      exact hal c hc
    unfold _process_special_chars
    rw [hid, hfa]
    simp

/-- Witness for `C4_emoji_stripping`: both conjuncts at concrete inputs. -/
theorem C4_emoji_stripping_witness :
    (∀ c ∈ (EnhancedFormatter.init FMT_STRING (some DATE_FMT) true
        true).format true "01/01/25 10:00:00".data "INFO".data INFO
        ("hi ".data ++ [Char.ofNat 0x1F600]), isEmojiChar c = false) ∧
    _process_special_chars
        (renderLine "01/01/25 10:00:00".data "INFO".data "all ascii".data)
      = renderLine "01/01/25 10:00:00".data "INFO".data "all ascii".data :=
  ⟨(C4_emoji_stripping (EnhancedFormatter.init FMT_STRING (some DATE_FMT)
      true true) true "01/01/25 10:00:00".data "INFO".data
      ("hi ".data ++ [Char.ofNat 0x1F600]) INFO).1
      ⟨Char.ofNat 0x1F600, by decide, by decide⟩,
   (C4_emoji_stripping (EnhancedFormatter.init FMT_STRING (some DATE_FMT)
      true true) true "01/01/25 10:00:00".data "INFO".data
      "all ascii".data INFO).2 (by decide) (by decide) (by decide)⟩

/-- C5 counterexample: a record whose message itself carries an ANSI color
sequence reaches the file sink verbatim — the plain formatter strips
nothing, so the file line does contain an ANSI escape sequence. -/
theorem C5_counterexample :
    hasEsc (plainFormat "01/01/25 00:00:00".data "INFO".data
      "\x1b[31malert".data) = true := by decide

/-- C5 (amended): for every record whose rendered fields contain no ESC
character, the file-sink line contains no ESC character regardless of TTY
state, and the console formatter built with `tty_only=true` while stdout is
not a TTY produces a line with no ESC character either. -/
theorem C5_no_ansi_when_clean (a ln m : Line) (lv : Nat) (t : Bool)
    (ha : escChar ∉ a) (hln : escChar ∉ ln) (hm : escChar ∉ m) :
    escChar ∉ plainFormat a ln m ∧
    escChar ∉ (EnhancedFormatter.init FMT_STRING (some DATE_FMT) true
      false).format t a ln lv m := by
  have hrl : escChar ∉ renderLine a ln m := by
    intro h
    rcases mem_render_cases h with h | h | h | h | h
    · exact ha h
    · exact absurd h (by decide)
    · exact hln h
    · exact absurd h (by decide)
    · exact hm h
  constructor
  · exact hrl
  · intro h
    unfold EnhancedFormatter.format EnhancedFormatter.init at h
    unfold _apply_colors at h
    rw [if_neg (by decide)] at h
    rcases mem_process_sub h with h | h | h
    · exact absurd h (by decide)
    · exact absurd h (by decide)
    · exact hrl h

/-- Witness for `C5_no_ansi_when_clean` at a concrete clean record. -/
theorem C5_no_ansi_witness :
    escChar ∉ plainFormat "01/01/25 00:00:00".data "INFO".data "hello".data ∧
    escChar ∉ (EnhancedFormatter.init FMT_STRING (some DATE_FMT) true
      false).format false "01/01/25 00:00:00".data "INFO".data INFO
      "hello".data :=
  C5_no_ansi_when_clean "01/01/25 00:00:00".data "INFO".data "hello".data
    INFO false (by decide) (by decide) (by decide)

/-! ## Lemmas about `archive_old_logs` -/

lemma unlinkAll_snd (fails : String → Bool) (errOf : String → String) :
    ∀ (olds : List String) (d : Dir),
    (unlinkAll fails errOf olds d).2
      = (olds.filter fails).map (errMsg errOf) := by
  intro olds
  induction olds with
  | nil => intro d; rfl
  | cons n rest ih =>
    intro d
    unfold unlinkAll
    by_cases hn : fails n = true
    · rw [if_pos hn]
      simp [List.filter_cons, hn, ih]
    · have hn' : fails n = false := by simpa using hn
      rw [if_neg hn]
      simp [List.filter_cons, hn', ih]

lemma unlinkAll_fst (fails : String → Bool) (errOf : String → String) :
    ∀ (olds : List String) (d : Dir),
    (unlinkAll fails errOf olds d).1
      = d.filter (fun f => !(decide (f.1 ∈ olds) && !fails f.1)) := by
  intro olds
  induction olds with
  | nil => intro d; simp [unlinkAll]
  | cons n rest ih =>
    intro d
    unfold unlinkAll
    by_cases hn : fails n = true
    · rw [if_pos hn, ih]
      apply List.filter_congr
      intro f hf
      by_cases hfn : f.1 = n
      · simp [List.mem_cons, hfn, hn]
      · simp [List.mem_cons, hfn]
    · have hn' : fails n = false := by simpa using hn
      rw [if_neg hn, ih]
      unfold removeFile
      rw [List.filter_filter]
      apply List.filter_congr
      intro f hf
      by_cases hfn : f.1 = n
      · simp [List.mem_cons, hfn, hn']
      · simp [List.mem_cons, hfn]

lemma mem_old_logs {d : Dir} {cur : String} {f : String × FileData}
    (h : f ∈ old_logs d cur) :
    f ∈ d ∧ globLogMatch f.1 = true ∧ f.1 ≠ cur := by
  unfold old_logs at h
  have h1 := List.mem_filter.mp h
  have h2 : globLogMatch f.1 = true ∧ f.1 ≠ cur := by
    have := h1.2
    simp only [Bool.and_eq_true, bne_iff_ne, ne_eq] at this
    exact this
  exact ⟨h1.1, h2.1, h2.2⟩

lemma glob_not_archive (n ts : String) (hg : globLogMatch n = true) :
    n ≠ archiveFileName ts := by
  intro he
  subst he
  unfold globLogMatch at hg
  rw [decide_eq_true_eq] at hg
  have hdata : (archiveFileName ts).data
      = ("logs_archive_".data ++ ts.data) ++ ".tar.gz".data := by
    unfold archiveFileName
    rw [String.data_append, String.data_append]
  rw [hdata] at hg
  obtain ⟨u, hu⟩ := hg
  have hr := congrArg List.reverse hu
  rw [List.reverse_append, List.reverse_append] at hr
  have h4 := congrArg (List.take 4) hr
  rw [List.take_append_of_le_length (by decide),
      List.take_append_of_le_length (by decide)] at h4
  exact absurd h4 (by decide)

lemma archive_not_in_oldNames (d : Dir) (cur ts : String) :
    archiveFileName ts ∉ (old_logs d cur).map (fun f => f.1) := by
  intro h
  obtain ⟨g, hg, hgeq⟩ := List.mem_map.mp h
  exact glob_not_archive g.1 ts (mem_old_logs hg).2.1 hgeq

lemma archive_old_logs_noop {d : Dir} {cur ts : String}
    {fails : String → Bool} {errOf : String → String}
    (h : old_logs d cur = []) :
    archive_old_logs d cur ts fails errOf = (d, []) := by
  simp [archive_old_logs, h]

lemma archive_old_logs_eq {d : Dir} {cur ts : String}
    {fails : String → Bool} {errOf : String → String}
    (h : old_logs d cur ≠ []) :
    archive_old_logs d cur ts fails errOf
      = unlinkAll fails errOf ((old_logs d cur).map (fun f => f.1))
          (writeFile d (archiveFileName ts)
            (FileData.tarball ((old_logs d cur).map (fun f => f.1)))) := by
  have hne : (old_logs d cur).isEmpty = false := by
    cases hol : old_logs d cur
    · exact absurd hol h
    · rfl
  simp [archive_old_logs, hne]

/-! ## Claim theorems: archiver -/

/-- C7: when no `*.log` file other than the about-to-be-created one exists,
`archive_old_logs` is a no-op: it returns immediately, creates no archive,
and leaves the directory unchanged. -/
theorem C7_noop_when_no_candidates (d : Dir) (cur ts : String)
    (fails : String → Bool) (errOf : String → String)
    (h : old_logs d cur = []) :
    archive_old_logs d cur ts fails errOf = (d, []) :=
  archive_old_logs_noop h

/-- Witness for `C7_noop_when_no_candidates`: the only `.log` file present
is the current one, so nothing happens. -/
theorem C7_noop_witness :
    archive_old_logs [("keep.txt", FileData.plain), ("x.log", FileData.plain)]
      "x.log" "T" (fun _ => false) (fun _ => "E")
    = ([("keep.txt", FileData.plain), ("x.log", FileData.plain)], []) :=
  C7_noop_when_no_candidates _ _ _ _ _ (by decide)

/-- C2: with a non-empty candidate set (and deletions succeeding),
`archive_old_logs` leaves exactly one archive named
`logs_archive_<ts>.tar.gz` in the directory, containing each candidate
under its own base name, and every original candidate is deleted. -/
theorem C2_archive_and_delete (d : Dir) (cur ts : String)
    (errOf : String → String) (h : old_logs d cur ≠ []) :
    ((archive_old_logs d cur ts (fun _ => false) errOf).1.filter
        (fun f => f.1 == archiveFileName ts)
      = [(archiveFileName ts,
          FileData.tarball ((old_logs d cur).map (fun f => f.1)))]) ∧
    (∀ n ∈ (old_logs d cur).map (fun f => f.1),
      n ∉ (archive_old_logs d cur ts (fun _ => false) errOf).1.map
        (fun f => f.1)) ∧
    (archive_old_logs d cur ts (fun _ => false) errOf).2 = [] := by
  refine ⟨?_, ?_, ?_⟩
  · rw [archive_old_logs_eq h, unlinkAll_fst, List.filter_filter]
    unfold writeFile
    rw [List.filter_append]
    have h1 : List.filter
        (fun a => a.1 == archiveFileName ts
          && !(decide (a.1 ∈ (old_logs d cur).map (fun f => f.1)) && !false))
        (d.filter (fun f => f.1 != archiveFileName ts)) = [] := by
      rw [List.filter_eq_nil_iff]
      intro f hf
      have hne : f.1 ≠ archiveFileName ts := by
        have := (List.mem_filter.mp hf).2
        simpa using this
      simp [hne]
    rw [h1, List.nil_append]
    have h2 : decide ((archiveFileName ts)
        ∈ (old_logs d cur).map (fun f => f.1)) = false := by
      simp [archive_not_in_oldNames d cur ts]
    simp [List.filter_cons, h2]
  · intro n hn hmem
    rw [archive_old_logs_eq h, unlinkAll_fst] at hmem
    obtain ⟨g, hg, hgeq⟩ := List.mem_map.mp hmem
    have hp := (List.mem_filter.mp hg).2
    rw [hgeq] at hp
    simp [hn] at hp
  · rw [archive_old_logs_eq h, unlinkAll_snd]
    simp

/-- Witness for `C2_archive_and_delete` on a concrete directory. -/
theorem C2_archive_witness :
    ((archive_old_logs [("a.log", FileData.plain), ("b.txt", FileData.plain)]
        "c.log" "T" (fun _ => false) (fun _ => "E")).1.filter
        (fun f => f.1 == archiveFileName "T")
      = [(archiveFileName "T", FileData.tarball ["a.log"])]) ∧
    (∀ n ∈ ["a.log"],
      n ∉ (archive_old_logs [("a.log", FileData.plain),
        ("b.txt", FileData.plain)] "c.log" "T" (fun _ => false)
        (fun _ => "E")).1.map (fun f => f.1)) ∧
    (archive_old_logs [("a.log", FileData.plain), ("b.txt", FileData.plain)]
      "c.log" "T" (fun _ => false) (fun _ => "E")).2 = [] :=
  C2_archive_and_delete _ _ _ _ (by decide)

/-- C6: a failing unlink during archival cleanup is caught, reported to
stderr as a single line of the documented form, and does not stop the
remaining deletions. -/
theorem C6_deletion_failure_reported (d : Dir) (cur ts : String)
    (fails : String → Bool) (errOf : String → String)
    (h : old_logs d cur ≠ [])
    (hex : ∃ n ∈ (old_logs d cur).map (fun f => f.1), fails n = true) :
    ((archive_old_logs d cur ts fails errOf).2
      = (((old_logs d cur).map (fun f => f.1)).filter fails).map
          (errMsg errOf)) ∧
    (∀ n ∈ (old_logs d cur).map (fun f => f.1), fails n = true →
      errMsg errOf n ∈ (archive_old_logs d cur ts fails errOf).2) ∧
    (∀ n ∈ (old_logs d cur).map (fun f => f.1), fails n = false →
      n ∉ (archive_old_logs d cur ts fails errOf).1.map (fun f => f.1)) := by
  refine ⟨?_, ?_, ?_⟩
  · rw [archive_old_logs_eq h, unlinkAll_snd]
  · intro n hn hf
    rw [archive_old_logs_eq h, unlinkAll_snd]
    exact List.mem_map.mpr ⟨n, List.mem_filter.mpr ⟨hn, hf⟩, rfl⟩
  · intro n hn hf hmem
    rw [archive_old_logs_eq h, unlinkAll_fst] at hmem
    obtain ⟨g, hg, hgeq⟩ := List.mem_map.mp hmem
    have hp := (List.mem_filter.mp hg).2
    rw [hgeq] at hp
    simp [hn, hf] at hp

/-- Witness for `C6_deletion_failure_reported`: `a.log` fails to delete,
`b.log` is still deleted, and exactly one error line is printed. -/
theorem C6_deletion_witness :
    ((archive_old_logs [("a.log", FileData.plain), ("b.log", FileData.plain)]
        "c.log" "T" (fun s => s == "a.log") (fun _ => "E")).2
      = ((["a.log", "b.log"]).filter (fun s => s == "a.log")).map
          (errMsg (fun _ => "E"))) ∧
    (∀ n ∈ ["a.log", "b.log"], (fun s => s == "a.log") n = true →
      errMsg (fun _ => "E") n
        ∈ (archive_old_logs [("a.log", FileData.plain),
            ("b.log", FileData.plain)] "c.log" "T" (fun s => s == "a.log")
            (fun _ => "E")).2) ∧
    (∀ n ∈ ["a.log", "b.log"], (fun s => s == "a.log") n = false →
      n ∉ (archive_old_logs [("a.log", FileData.plain),
            ("b.log", FileData.plain)] "c.log" "T" (fun s => s == "a.log")
            (fun _ => "E")).1.map (fun f => f.1)) :=
  C6_deletion_failure_reported _ _ _ _ _ (by decide)
    ⟨"a.log", by decide, by decide⟩

/-- C10: only `*.log` files are archival candidates; every other file —
previously created `logs_archive_*.tar.gz` bundles included — is neither
selected for the new archive nor deleted. -/
theorem C10_non_log_files_untouched (d : Dir) (cur ts : String)
    (fails : String → Bool) (errOf : String → String)
    (f : String × FileData) (hf : f ∈ d) (hg : globLogMatch f.1 = false) :
    f.1 ∉ (old_logs d cur).map (fun x => x.1) ∧
    f.1 ∈ (archive_old_logs d cur ts fails errOf).1.map (fun x => x.1) := by
  have hnot : f.1 ∉ (old_logs d cur).map (fun x => x.1) := by
    intro hmem
    obtain ⟨g, hgmem, hgeq⟩ := List.mem_map.mp hmem
    have hgl := (mem_old_logs hgmem).2.1
    rw [hgeq, hg] at hgl
    exact Bool.false_ne_true hgl
  refine ⟨hnot, ?_⟩
  by_cases hol : old_logs d cur = []
  · rw [archive_old_logs_noop hol]
    exact List.mem_map.mpr ⟨f, hf, rfl⟩
  · rw [archive_old_logs_eq hol, unlinkAll_fst]
    by_cases hfa : f.1 = archiveFileName ts
    · refine List.mem_map.mpr ⟨(archiveFileName ts,
        FileData.tarball ((old_logs d cur).map (fun x => x.1))), ?_, hfa.symm⟩
      refine List.mem_filter.mpr ⟨?_, ?_⟩
      · unfold writeFile
        exact List.mem_append.mpr (Or.inr (List.mem_singleton.mpr rfl))
      · rw [← hfa]
        simp [hnot]
    · refine List.mem_map.mpr ⟨f, List.mem_filter.mpr ⟨?_, ?_⟩, rfl⟩
      · unfold writeFile
        exact List.mem_append.mpr (Or.inl (List.mem_filter.mpr
          ⟨hf, by simp [hfa]⟩))
      · simp [hnot]

/-- Witness for `C10_non_log_files_untouched`: a pre-existing archive
bundle survives a run that archives `n.log`. -/
theorem C10_untouched_witness :
    "old.tar.gz" ∉ (old_logs [("old.tar.gz", FileData.tarball ["x.log"]),
        ("n.log", FileData.plain)] "c.log").map (fun x => x.1) ∧
    "old.tar.gz" ∈ (archive_old_logs [("old.tar.gz",
        FileData.tarball ["x.log"]), ("n.log", FileData.plain)] "c.log" "T"
        (fun _ => false) (fun _ => "E")).1.map (fun x => x.1) :=
  C10_non_log_files_untouched _ _ _ _ _
    ("old.tar.gz", FileData.tarball ["x.log"]) (by decide) (by decide)

/-- C9: `use_colors` is fixed at construction from stdout's TTY state then
(or forced by `tty_only=false`), and the formatted output is independent of
the TTY state at format time. -/
theorem C9_color_decision_fixed (fmt : String) (dfmt : Option String)
    (tty stdoutTTY t1 t2 : Bool) (a ln m : Line) (lv : Nat) :
    (EnhancedFormatter.init fmt dfmt tty stdoutTTY).use_colors
        = (stdoutTTY || !tty) ∧
    (EnhancedFormatter.init fmt dfmt tty stdoutTTY).format t1 a ln lv m
        = (EnhancedFormatter.init fmt dfmt tty stdoutTTY).format t2 a ln lv m :=
  ⟨rfl, rfl⟩

/-! ## Claim theorems: configuration entry point and rotation -/

lemma rollover_bound (c : Nat) :
    ∀ (steps : List (String × String)) (s : RotState),
    s.backups.length ≤ c → (rolloverRuns c steps s).backups.length ≤ c := by
  intro steps
  induction steps with
  | nil => intro s h; exact h
  | cons p rest ih =>
    intro s h
    unfold rolloverRuns
    rw [List.foldl_cons]
    refine ih _ ?_
    unfold doRollover
    rw [List.length_take]
    omega

/-- C1: re-invoking `configure_logging` for the same logger name leaves
exactly the handlers attached by the second call — the first call's handlers
are all detached — so a record is emitted exactly once per sink: one console
line always, one file line exactly when the second call saves. -/
theorem C1_reconfigure_exact_handlers (name : String) (prev : List Handler)
    (lvl1 lvl2 : Nat) (save1 save2 : Bool) (tty1 tty2 : Bool) (d1 d2 : Dir)
    (nf1 na1 nf2 na2 : String) (f1 f2 : String → Bool)
    (e1 e2 : String → String) (t : Bool) (a ln m : Line) (lv : Nat) :
    ((configure_logging name
        (configure_logging name prev lvl1 save1 tty1 d1 nf1 na1 f1 e1).1.handlers
        lvl2 save2 tty2 d2 nf2 na2 f2 e2).1.handlers
      = [mkConsoleHandler tty2]
          ++ (if save2 then [mkFileHandler (nf2 ++ ".log")] else [])) ∧
    ((configure_logging name
        (configure_logging name prev lvl1 save1 tty1 d1 nf1 na1 f1 e1).1.handlers
        lvl2 save2 tty2 d2 nf2 na2 f2 e2).1.handlers
      = (configure_logging name [] lvl2 save2 tty2 d2 nf2 na2 f2
          e2).1.handlers) ∧
    ((configure_logging name
        (configure_logging name prev lvl1 save1 tty1 d1 nf1 na1 f1 e1).1.handlers
        lvl2 save2 tty2 d2 nf2 na2 f2 e2).1.handlers.countP isStreamHandler
      = 1) ∧
    ((configure_logging name
        (configure_logging name prev lvl1 save1 tty1 d1 nf1 na1 f1 e1).1.handlers
        lvl2 save2 tty2 d2 nf2 na2 f2 e2).1.handlers.countP isFileHandler
      = if save2 then 1 else 0) ∧
    ((emitRecord (configure_logging name
        (configure_logging name prev lvl1 save1 tty1 d1 nf1 na1 f1 e1).1.handlers
        lvl2 save2 tty2 d2 nf2 na2 f2 e2).1 t a ln lv m).length
      = (configure_logging name
        (configure_logging name prev lvl1 save1 tty1 d1 nf1 na1 f1 e1).1.handlers
        lvl2 save2 tty2 d2 nf2 na2 f2 e2).1.handlers.length) := by
  cases save2 <;>
    simp [configure_logging, emitRecord, mkConsoleHandler, mkFileHandler,
      isStreamHandler, isFileHandler, List.countP_cons, List.countP_nil]

/-- C8: when persistence is requested the attached file handler rotates at
local midnight with `backupCount=7`; under the modelled rollover mechanism a
rollover installs the new active file and the retained backups never exceed
seven. -/
theorem C8_midnight_rotation_bound (name : String) (prev : List Handler)
    (lvl : Nat) (tty : Bool) (d : Dir) (nf na : String)
    (fails : String → Bool) (errOf : String → String) :
    ((configure_logging name prev lvl true tty d nf na fails errOf).1.handlers
      = [mkConsoleHandler tty,
         Handler.timedRotatingFile (nf ++ ".log") "midnight" 7 "utf-8"
           FMT_STRING DATE_FMT]) ∧
    (∀ (bc : Nat) (rn nc : String) (s : RotState),
      (doRollover bc rn nc s).current = nc) ∧
    (∀ (steps : List (String × String)) (s : RotState),
      s.backups.length ≤ 7 →
      (rolloverRuns 7 steps s).backups.length ≤ 7) := by
  refine ⟨?_, fun bc rn nc s => rfl,
    fun steps s h => rollover_bound 7 steps s h⟩
  simp [configure_logging, mkConsoleHandler, mkFileHandler]

/-- Witness for `C8_midnight_rotation_bound`: nine rollovers from an empty
backlog keep at most seven backups (and the configured handler list). -/
theorem C8_midnight_rotation_witness :
    (rolloverRuns 7 [("b1", "f1"), ("b2", "f2"), ("b3", "f3"), ("b4", "f4"),
      ("b5", "f5"), ("b6", "f6"), ("b7", "f7"), ("b8", "f8"), ("b9", "f9")]
      ⟨"f0", []⟩).backups.length ≤ 7 :=
  (C8_midnight_rotation_bound "app" [] 10 true [] "t" "u" (fun _ => false)
    (fun _ => "")).2.2 _ _ (by decide)
